import Mathlib

/-!
# gotling: the HTTP action executor (`httpreq.go`)

A shallow embedding of `httpreq.go`: `trimChar`, `passResultIntoSessionMap`,
`processResult`, `buildHttpResult`, `buildHttpRequest` and `DoHttpRequest`.

* A Go `string` / `[]byte` is a list of bytes.
* The session `map[string]string` is a function from keys to the value stored, if any.
* A Go `panic` and `log.Fatal` both end the process; they are the two values of `Abort`,
  and every function that can reach one returns `Except Abort _`; `DoHttpRequest` returns
  with the abort the channel as it stands when the process ends.
* The results channel is the list of records sent on it so far, oldest first.
* `math/rand`'s global source is the stream of raw draws still to come; `rand.Intn`
  consumes the first one.
* The HTTP clients, the jsonpath/xmlpath libraries, `strings.TrimSpace`, the clock and
  `SubstParams` are the fields of `Env`: what they return is an input of the model.
-/

namespace Gotling

/-! ## Data model -/

/-- A Go `string` (and a `[]byte`): a sequence of bytes. -/
abbrev GoString := List UInt8

/-- The bytes of an ASCII literal, to write examples legibly. -/
def ascii (s : String) : GoString :=
  s.toList.map (fun c => UInt8.ofNat c.toNat)

/-- The value of a Go `error`; only its presence matters here. -/
abbrev GoError := String

/-- The two ways the process ends early: an unrecovered `panic(err)` and `log.Fatal(err)`. -/
inductive Abort where
  | panic (err : GoError)
  | fatal (err : GoError)
  deriving DecidableEq, Repr

/-- The session `map[string]string` of one virtual user. -/
abbrev Session := GoString → Option GoString

/-- The empty session. -/
def Session.empty : Session := fun _ => none

/-- The Go assignment `sessionMap[k] = v`. -/
def Session.set (sessionMap : Session) (k v : GoString) : Session :=
  fun k' => if k' = k then some v else sessionMap k'

/-- Modelled from the spec: the declaration of the constants `FIRST`, `LAST` and `RANDOM` is
not in `httpreq.go`; the spec's data model says a selection policy "always resolves to exactly
one of {FIRST, LAST, RANDOM}". -/
inductive SelectionPolicy where
  | FIRST
  | LAST
  | RANDOM
  deriving DecidableEq, Repr

/-- Modelled from the spec: the declaration of the response handler is not in `httpreq.go`;
these are the four fields `httpreq.go` reads from `httpAction.ResponseHandler`. -/
structure HttpResponseHandler where
  Jsonpath : GoString
  Xmlpath : GoString
  Variable : GoString
  Index : SelectionPolicy

/-- Modelled from the spec: the declaration of `HttpAction` is not in `httpreq.go`; these are
the fields `httpreq.go` reads from it. -/
structure HttpAction where
  Method : GoString
  Url : GoString
  Body : GoString
  Accept : GoString
  Title : GoString
  Client : GoString
  ResponseHandler : HttpResponseHandler

/-- Modelled from the spec: the declaration of `HttpReqResult` is not in `httpreq.go`; the six
fields are the six positional values `buildHttpResult` fills in, named as in the spec's result
record. -/
structure HttpReqResult where
  protocol : GoString
  elapsed : Int
  contentLength : Int
  status : Int
  title : GoString
  sinceSimulationStart : Int
  deriving DecidableEq

/-- The source behind `math/rand`: the raw draws still to come, the next one at index 0. -/
abbrev RandSource := Nat → Nat

/-- The request `DoHttpRequest` fills in for `fasthttp`. -/
structure FasthttpRequest where
  method : GoString
  requestURI : GoString
  accept : GoString

/-- What `DoHttpRequest` reads of a `fasthttp.Response`. -/
structure FasthttpResponse where
  StatusCode : Int
  Body : GoString

/-- A `net/http` request as `buildHttpRequest` builds it; `body = none` is the nil reader. -/
structure HttpRequest where
  method : GoString
  url : GoString
  body : Option GoString
  accept : List GoString

/-- What `DoHttpRequest` reads of a `net/http` response: the status code and what
`ioutil.ReadAll(resp.Body)` returns. -/
structure HttpResponse where
  StatusCode : Int
  ReadAll : Except GoError GoString

/-- The jsonpath evaluation `eval`: the `Pretty(false)` text of each result that `eval.Next()`
yields, in order, and `eval.Error` once `Next` has reported the end. -/
structure Eval where
  results : List GoString
  Error : Option GoError

/-- Everything `httpreq.go` calls that is not in `httpreq.go`. -/
structure Env where
  /-- The compiled jsonpath paths. -/
  Paths : Type
  /-- The compiled xmlpath path. -/
  XPath : Type
  /-- The parsed XML document. -/
  XNode : Type
  /-- The repository's placeholder substitution; its code is not in `httpreq.go`. -/
  SubstParams : Session → GoString → GoString
  /-- The function `strings.TrimSpace`. -/
  TrimSpace : GoString → GoString
  /-- The function `jsonpath.ParsePaths`. -/
  ParsePaths : GoString → Except GoError Paths
  /-- The function `jsonpath.EvalPathsInBytes`. -/
  EvalPathsInBytes : GoString → Paths → Except GoError Eval
  /-- The function `xmlpath.Compile`, which `xmlpath.MustCompile` wraps. -/
  Compile : GoString → Except GoError XPath
  /-- The function `xmlpath.Parse` on a reader over the given bytes. -/
  Parse : GoString → Except GoError XNode
  /-- The `String()` of each node `path.Iter(root)` yields, in order. -/
  Iter : XPath → XNode → List GoString
  /-- The call `c.Do(req, resp)`: the response as it is left, and the error. -/
  fasthttpDo : FasthttpRequest → FasthttpResponse × Option GoError
  /-- The function `http.NewRequest`. -/
  NewRequest : GoString → GoString → Option GoString → Except GoError HttpRequest
  /-- The call `client.Do(req)`. -/
  clientDo : HttpRequest → Except GoError HttpResponse
  /-- The reading `time.Since(start).Nanoseconds()`. -/
  elapsed : Int
  /-- The reading `time.Since(SimulationStart).Nanoseconds()`. -/
  sinceSimulationStart : Int

/-! ## `trimChar` -/

/-- The function `trimChar` of `httpreq.go`. -/
def trimChar (s : GoString) (r : UInt8) : GoString :=
  let sz := s.length
  let s := if sz > 0 ∧ s[sz - 1]? = some r then s.take (sz - 1) else s
  let sz := s.length
  let s := if sz > 0 ∧ s[0]? = some r then (s.take sz).drop 1 else s
  s

/-- What the description of `trimChar` says, step by step: drop one trailing `r` if the string
ends with `r`, then drop one leading `r` if what remains starts with `r`. -/
def stripOneLayer (s : GoString) (r : UInt8) : GoString :=
  let s1 := if s.getLast? = some r then s.dropLast else s
  if s1.head? = some r then s1.tail else s1

/-! ## `passResultIntoSessionMap` -/

/-- The call `rand.Intn(n)`: panics when `n <= 0`, else a value of `[0, n)` and one draw used. -/
def Intn (rng : RandSource) (n : Int) : Except Abort (Int × RandSource) :=
  if n ≤ 0 then .error (.panic "invalid argument to Intn")
  else .ok ((rng 0 : Int) % n, fun k => rng (k + 1))

/-- The Go index expression `resultsArray[i]`, which panics outside `[0, len)`. -/
def index (resultsArray : List GoString) (i : Int) : Except Abort GoString :=
  if i < 0 then .error (.panic "index out of range")
  else
    match resultsArray[i.toNat]? with
    | some v => .ok v
    | none => .error (.panic "index out of range")

/-- The function `passResultIntoSessionMap` of `httpreq.go`. -/
def passResultIntoSessionMap (resultsArray : List GoString) (httpAction : HttpAction)
    (sessionMap : Session) (rng : RandSource) : Except Abort (Session × RandSource) :=
  let resultCount : Int := resultsArray.length
  if resultCount > 0 then
    match httpAction.ResponseHandler.Index with
    | .FIRST => do
      let v ← index resultsArray 0
      pure (sessionMap.set httpAction.ResponseHandler.Variable v, rng)
    | .LAST => do
      let v ← index resultsArray (resultCount - 1)
      pure (sessionMap.set httpAction.ResponseHandler.Variable v, rng)
    | .RANDOM =>
      if resultCount > 1 then do
        let (i, rng') ← Intn rng (resultCount - 1)
        let v ← index resultsArray i
        pure (sessionMap.set httpAction.ResponseHandler.Variable v, rng')
      else do
        let v ← index resultsArray 0
        pure (sessionMap.set httpAction.ResponseHandler.Variable v, rng)
  else
    pure (sessionMap, rng)

/-! ## `processResult` -/

/-- The byte `'"'`. -/
def quote : UInt8 := 34

/-- The loop over `eval.Next()` in `processResult`: each result is space-trimmed, stripped of
one layer of quotes and appended to `resultsArray`. -/
def jsonLoop (env : Env) : List GoString → List GoString → List GoString
  | [], resultsArray => resultsArray
  | result :: rest, resultsArray =>
    let value := env.TrimSpace result
    jsonLoop env rest (resultsArray ++ [trimChar value quote])

/-- The loop over `iterator.Next()` in `processResult`: each node's string is appended. -/
def xmlLoop : List GoString → List GoString → List GoString
  | [], resultsArray => resultsArray
  | node :: rest, resultsArray => xmlLoop rest (resultsArray ++ [node])

/-- The function `xmlpath.MustCompile`: panics where `xmlpath.Compile` returns an error. -/
def MustCompile (env : Env) (path : GoString) : Except Abort env.XPath :=
  match env.Compile path with
  | .error err => .error (.panic err)
  | .ok p => .ok p

/-- The first block of `processResult`: the branch taken when a Jsonpath is set. -/
def processJson (env : Env) (httpAction : HttpAction) (sessionMap : Session) (rng : RandSource)
    (responseBody : GoString) : Except Abort (Session × RandSource) :=
  match env.ParsePaths httpAction.ResponseHandler.Jsonpath with
  | .error err => .error (.panic err)
  | .ok paths =>
    match env.EvalPathsInBytes responseBody paths with
    | .error err => .error (.panic err)
    | .ok eval =>
      let resultsArray := jsonLoop env eval.results []
      match eval.Error with
      | some err => .error (.panic err)
      | none => passResultIntoSessionMap resultsArray httpAction sessionMap rng

/-- The second block of `processResult`: the branch taken when an Xmlpath is set. -/
def processXml (env : Env) (httpAction : HttpAction) (sessionMap : Session) (rng : RandSource)
    (responseBody : GoString) : Except Abort (Session × RandSource) := do
  let path ← MustCompile env httpAction.ResponseHandler.Xmlpath
  match env.Parse responseBody with
  | .error err => .error (.fatal err)
  | .ok root =>
    match env.Iter path root with
    | [] => pure (sessionMap, rng)
    | node :: rest =>
      let resultsArray := xmlLoop (node :: rest) []
      passResultIntoSessionMap resultsArray httpAction sessionMap rng

/-- The function `processResult` of `httpreq.go`. -/
def processResult (env : Env) (httpAction : HttpAction) (sessionMap : Session) (rng : RandSource)
    (responseBody : GoString) : Except Abort (Session × RandSource) := do
  let (sessionMap, rng) ←
    (if httpAction.ResponseHandler.Jsonpath ≠ [] then
      processJson env httpAction sessionMap rng responseBody
    else
      pure (sessionMap, rng))
  if httpAction.ResponseHandler.Xmlpath ≠ [] then
    processXml env httpAction sessionMap rng responseBody
  else
    pure (sessionMap, rng)

/-! ## `buildHttpResult`, `buildHttpRequest`, `DoHttpRequest` -/

/-- The function `buildHttpResult` of `httpreq.go`. -/
def buildHttpResult (env : Env) (contentLength : Int) (status : Int) (elapsed : Int)
    (title : GoString) : HttpReqResult :=
  { protocol := ascii "HTTP"
    elapsed := elapsed
    contentLength := contentLength
    status := status
    title := title
    sinceSimulationStart := env.sinceSimulationStart }

/-- The function `buildHttpRequest` of `httpreq.go`. -/
def buildHttpRequest (env : Env) (httpAction : HttpAction) (sessionMap : Session) :
    Except Abort HttpRequest :=
  let made :=
    if httpAction.Body ≠ [] then
      let reader := env.SubstParams sessionMap httpAction.Body
      env.NewRequest httpAction.Method (env.SubstParams sessionMap httpAction.Url) (some reader)
    else
      env.NewRequest httpAction.Method (env.SubstParams sessionMap httpAction.Url) none
  match made with
  | .error err => .error (.fatal err)
  | .ok req => .ok { req with accept := req.accept ++ [httpAction.Accept] }

/-- The function `DoHttpRequest` of `httpreq.go`. The result is the channel (the records sent
so far, this call's appended), the session and the random source after the call. When the
process ends inside the call, the result is the abort together with the channel as it stands at
that point. -/
def DoHttpRequest (env : Env) (httpAction : HttpAction) (resultsChannel : List HttpReqResult)
    (sessionMap : Session) (rng : RandSource) :
    Except (Abort × List HttpReqResult) (List HttpReqResult × Session × RandSource) :=
  if httpAction.Client = ascii "fasthttp" then
    let req : FasthttpRequest :=
      { method := httpAction.Method
        requestURI := env.SubstParams sessionMap httpAction.Url
        accept := httpAction.Accept }
    let (resp, err) := env.fasthttpDo req
    let elapsed := env.elapsed
    match err with
    | some _ =>
      let httpReqResult := buildHttpResult env 0 resp.StatusCode elapsed httpAction.Title
      .ok (resultsChannel ++ [httpReqResult], sessionMap, rng)
    | none =>
      let responseBody := resp.Body
      match processResult env httpAction sessionMap rng responseBody with
      | .error abort => .error (abort, resultsChannel)
      | .ok (sessionMap, rng) =>
        let httpReqResult :=
          buildHttpResult env responseBody.length resp.StatusCode elapsed httpAction.Title
        .ok (resultsChannel ++ [httpReqResult], sessionMap, rng)
  else
    match buildHttpRequest env httpAction sessionMap with
    | .error abort => .error (abort, resultsChannel)
    | .ok req =>
      match env.clientDo req with
      | .error _ => .ok (resultsChannel, sessionMap, rng)
      | .ok resp =>
        let elapsed := env.elapsed
        match resp.ReadAll with
        | .error _ =>
          let httpReqResult := buildHttpResult env 0 resp.StatusCode elapsed httpAction.Title
          .ok (resultsChannel ++ [httpReqResult], sessionMap, rng)
        | .ok responseBody =>
          match processResult env httpAction sessionMap rng responseBody with
          | .error abort => .error (abort, resultsChannel)
          | .ok (sessionMap, rng) =>
            let httpReqResult :=
              buildHttpResult env responseBody.length resp.StatusCode elapsed httpAction.Title
            .ok (resultsChannel ++ [httpReqResult], sessionMap, rng)

/-! ## Outcomes of the library calls -/

/-- The Jsonpath block of `processResult` meets an error: `ParsePaths` fails, or
`EvalPathsInBytes` fails, or `eval.Error` is set after the iteration. -/
def jsonFails (env : Env) (httpAction : HttpAction) (responseBody : GoString) : Bool :=
  match env.ParsePaths httpAction.ResponseHandler.Jsonpath with
  | .error _ => true
  | .ok paths =>
    match env.EvalPathsInBytes responseBody paths with
    | .error _ => true
    | .ok eval => eval.Error.isSome

/-- The Xmlpath block of `processResult` meets an error: the path does not compile or the body
does not parse. -/
def xmlFails (env : Env) (httpAction : HttpAction) (responseBody : GoString) : Bool :=
  match env.Compile httpAction.ResponseHandler.Xmlpath with
  | .error _ => true
  | .ok _ =>
    match env.Parse responseBody with
    | .error _ => true
    | .ok _ => false

/-- A configured query fails to compile or to evaluate against the body. -/
def extractionFails (env : Env) (httpAction : HttpAction) (responseBody : GoString) : Bool :=
  (decide (httpAction.ResponseHandler.Jsonpath ≠ []) && jsonFails env httpAction responseBody)
  || (decide (httpAction.ResponseHandler.Xmlpath ≠ []) && xmlFails env httpAction responseBody)

/-- The transport send and the read of the body both succeed, with status code `c` and
response body `b`, for the client the action names. -/
def TransportSucceeds (env : Env) (httpAction : HttpAction) (sessionMap : Session) (c : Int)
    (b : GoString) : Prop :=
  if httpAction.Client = ascii "fasthttp" then
    env.fasthttpDo
        { method := httpAction.Method
          requestURI := env.SubstParams sessionMap httpAction.Url
          accept := httpAction.Accept }
      = ({ StatusCode := c, Body := b }, none)
  else
    match buildHttpRequest env httpAction sessionMap with
    | .error _ => False
    | .ok req =>
      match env.clientDo req with
      | .error _ => False
      | .ok resp => resp.StatusCode = c ∧ resp.ReadAll = .ok b

/-! ## Concrete inputs -/

/-- A handler writing to the variable `v`. -/
def demoHandler (jsonpath xmlpath : GoString) (policy : SelectionPolicy) : HttpResponseHandler :=
  { Jsonpath := jsonpath, Xmlpath := xmlpath, Variable := ascii "v", Index := policy }

/-- A `GET` action titled `t` for the given client and handler. -/
def demoAction (client : GoString) (handler : HttpResponseHandler) : HttpAction :=
  { Method := ascii "GET", Url := ascii "http://h/", Body := [], Accept := ascii "text/plain",
    Title := ascii "t", Client := client, ResponseHandler := handler }

/-- An action with no query, selecting by `policy`. -/
def policyAction (policy : SelectionPolicy) : HttpAction :=
  demoAction (ascii "fasthttp") (demoHandler [] [] policy)

/-- The three matches `x`, `y`, `z`. -/
def xyz : List GoString := [ascii "x", ascii "y", ascii "z"]

/-- A random source whose every draw is `d`. -/
def constSource (d : Nat) : RandSource := fun _ => d

/-- An environment in which each library call returns what is given here; placeholders are
left as they are and `TrimSpace` finds nothing to trim. -/
def demoEnv (parsePaths : Except GoError Unit) (eval : Except GoError Eval)
    (xmlParse : Except GoError Unit) (nodes : List GoString)
    (fast : FasthttpResponse × Option GoError) (send : Except GoError HttpResponse) : Env :=
  { Paths := Unit
    XPath := Unit
    XNode := Unit
    SubstParams := fun _ template => template
    TrimSpace := fun s => s
    ParsePaths := fun _ => parsePaths
    EvalPathsInBytes := fun _ _ => eval
    Compile := fun _ => .ok ()
    Parse := fun _ => xmlParse
    Iter := fun _ _ => nodes
    fasthttpDo := fun _ => fast
    NewRequest := fun method url body => .ok { method := method, url := url, body := body, accept := [] }
    clientDo := fun _ => send
    elapsed := 5
    sinceSimulationStart := 9 }

/-- An environment in which the send fails for both clients. -/
def sendFailsEnv : Env :=
  demoEnv (.ok ()) (.ok { results := [], Error := none }) (.ok ()) []
    ({ StatusCode := 0, Body := [] }, some "dial tcp: connection refused")
    (.error "dial tcp: connection refused")

/-- An environment in which the send succeeds with status 200 and body `ab`, and the Jsonpath
does not compile. -/
def jsonCompileFailsEnv : Env :=
  demoEnv (.error "bad path") (.ok { results := [], Error := none }) (.ok ()) []
    ({ StatusCode := 200, Body := ascii "ab" }, none)
    (.ok { StatusCode := 200, ReadAll := .ok (ascii "ab") })

/-- The body `<a></b>`, whose closing tag does not match the element it closes. -/
def mismatchedXml : GoString := ascii "<a></b>"

/-- The body `<a>`, whose element is never closed. -/
def unclosedXml : GoString := ascii "<a>"

/-- An environment in which the send succeeds with status 200 and the given body, meant for one
of the two malformed bodies `<a></b>` and `<a>`: `xmlpath.Parse` rejects these two with the XML
syntax error of `encoding/xml`, and the Xmlpath `//a` compiles. The jsonpath fields are not
reached by an action without a Jsonpath. -/
def xmlBodyEnv (body : GoString) : Env :=
  { Paths := Unit
    XPath := Unit
    XNode := Unit
    SubstParams := fun _ template => template
    TrimSpace := fun s => s
    ParsePaths := fun _ => .ok ()
    EvalPathsInBytes := fun _ _ => .ok { results := [], Error := some "not a JSON document" }
    Compile := fun _ => .ok ()
    Parse := fun b =>
      if b = mismatchedXml ∨ b = unclosedXml then .error "XML syntax error" else .ok ()
    Iter := fun _ _ => []
    fasthttpDo := fun _ => ({ StatusCode := 200, Body := body }, none)
    NewRequest := fun method url reader =>
      .ok { method := method, url := url, body := reader, accept := [] }
    clientDo := fun _ => .ok { StatusCode := 200, ReadAll := .ok body }
    elapsed := 5
    sinceSimulationStart := 9 }

/-- An environment in which the send succeeds with status 200 and body `ab`, the Jsonpath
matches `"j"` (in quotes) and the Xmlpath matches the given nodes. -/
def bothMatchEnv (nodes : List GoString) : Env :=
  demoEnv (.ok ()) (.ok { results := [[34, 106, 34]], Error := none }) (.ok ()) nodes
    ({ StatusCode := 200, Body := ascii "ab" }, none)
    (.ok { StatusCode := 200, ReadAll := .ok (ascii "ab") })

/-- An action for `client` with a Jsonpath and no Xmlpath. -/
def jsonAction (client : GoString) : HttpAction :=
  demoAction client (demoHandler (ascii "$.a") [] .FIRST)

/-- An action for `client` with an Xmlpath and no Jsonpath. -/
def xmlAction (client : GoString) : HttpAction :=
  demoAction client (demoHandler [] (ascii "//a") .FIRST)

/-- An action for `client` with both a Jsonpath and an Xmlpath. -/
def bothAction (client : GoString) : HttpAction :=
  demoAction client (demoHandler (ascii "$.a") (ascii "//a") .FIRST)

/-! ## Lemmas on the building blocks -/

theorem trimChar_eq_stripOneLayer (s : GoString) (r : UInt8) :
    trimChar s r = stripOneLayer s r := by
  have hlast : ∀ t : GoString, (t.length > 0 ∧ t[t.length - 1]? = some r) ↔ t.getLast? = some r := by
    intro t
    rw [List.getLast?_eq_getElem?]
    constructor
    · exact fun h => h.2
    · intro h
      refine ⟨?_, h⟩
      cases t with
      | nil => simp at h
      | cons a t => simp
  have hhead : ∀ t : GoString, (t.length > 0 ∧ t[0]? = some r) ↔ t.head? = some r := by
    intro t
    cases t with
    | nil => simp
    | cons a t => simp
  have htail : ∀ t : GoString, (t.take t.length).drop 1 = t.tail := by
    intro t
    simp
  unfold trimChar stripOneLayer
  simp only [hlast, hhead, htail, ← List.dropLast_eq_take]

theorem stripOneLayer_wrapped (t : GoString) (r : UInt8) :
    stripOneLayer (r :: (t ++ [r])) r = t := by
  have h1 : (r :: (t ++ [r])).getLast? = some r := by
    rw [← List.cons_append, List.getLast?_append]
    simp
  have h2 : (r :: (t ++ [r])).dropLast = r :: t := by
    rw [← List.cons_append, List.dropLast_concat]
  simp [stripOneLayer, h1, h2]

theorem index_natCast (resultsArray : List GoString) (n : Nat) (h : n < resultsArray.length) :
    index resultsArray (n : Int) = .ok resultsArray[n] := by
  have hn : ¬ ((n : Int) < 0) := by omega
  simp [index, hn, List.getElem?_eq_getElem h]

theorem Intn_pos (rng : RandSource) (n : Nat) (h : 0 < n) :
    Intn rng (n : Int) = .ok (((rng 0 % n : Nat) : Int), fun k => rng (k + 1)) := by
  have hn : ¬ ((n : Int) ≤ 0) := by omega
  simp [Intn, hn]

/-- Every value of `[0, n)` is an outcome of `rand.Intn(n)` for some random source. -/
theorem Intn_reaches (n i : Nat) (h : i < n) :
    ∃ rng rng', Intn rng (n : Int) = .ok ((i : Int), rng') := by
  refine ⟨fun _ => i, fun _ => i, ?_⟩
  rw [Intn_pos (fun _ => i) n (by omega), Nat.mod_eq_of_lt h]

theorem passResultIntoSessionMap_nil (httpAction : HttpAction) (sessionMap : Session)
    (rng : RandSource) :
    passResultIntoSessionMap [] httpAction sessionMap rng = .ok (sessionMap, rng) := by
  simp [passResultIntoSessionMap]
  rfl

theorem passResultIntoSessionMap_FIRST (resultsArray : List GoString) (httpAction : HttpAction)
    (sessionMap : Session) (rng : RandSource) (h : 0 < resultsArray.length)
    (hp : httpAction.ResponseHandler.Index = .FIRST) :
    passResultIntoSessionMap resultsArray httpAction sessionMap rng
      = .ok (sessionMap.set httpAction.ResponseHandler.Variable resultsArray[0], rng) := by
  have hc : ((resultsArray.length : Nat) : Int) > 0 := by omega
  have hi := index_natCast resultsArray 0 h
  simp only [Nat.cast_zero] at hi
  simp only [passResultIntoSessionMap, hc, if_true, hp, hi]
  rfl

theorem passResultIntoSessionMap_LAST (resultsArray : List GoString) (httpAction : HttpAction)
    (sessionMap : Session) (rng : RandSource) (h : 0 < resultsArray.length)
    (hp : httpAction.ResponseHandler.Index = .LAST) :
    passResultIntoSessionMap resultsArray httpAction sessionMap rng
      = .ok (sessionMap.set httpAction.ResponseHandler.Variable
          resultsArray[resultsArray.length - 1], rng) := by
  have hc : ((resultsArray.length : Nat) : Int) > 0 := by omega
  have hi := index_natCast resultsArray (resultsArray.length - 1) (by omega)
  have hcast : ((resultsArray.length - 1 : Nat) : Int) = (resultsArray.length : Int) - 1 := by
    omega
  have hi' : index resultsArray ((resultsArray.length : Int) - 1)
      = .ok resultsArray[resultsArray.length - 1] :=
    (congrArg (index resultsArray) hcast.symm).trans hi
  simp only [passResultIntoSessionMap, hc, if_true, hp, hi']
  rfl

theorem passResultIntoSessionMap_RANDOM_one (resultsArray : List GoString)
    (httpAction : HttpAction) (sessionMap : Session) (rng : RandSource)
    (h : resultsArray.length = 1) (hp : httpAction.ResponseHandler.Index = .RANDOM) :
    passResultIntoSessionMap resultsArray httpAction sessionMap rng
      = .ok (sessionMap.set httpAction.ResponseHandler.Variable resultsArray[0], rng) := by
  have hc : ((resultsArray.length : Nat) : Int) > 0 := by omega
  have hc1 : ¬ (((resultsArray.length : Nat) : Int) > 1) := by omega
  have hi := index_natCast resultsArray 0 (by omega)
  simp only [Nat.cast_zero] at hi
  simp only [passResultIntoSessionMap, hc, hc1, if_true, if_false, hp, hi]
  rfl

theorem passResultIntoSessionMap_RANDOM_many (resultsArray : List GoString)
    (httpAction : HttpAction) (sessionMap : Session) (rng : RandSource)
    (h : 1 < resultsArray.length) (hp : httpAction.ResponseHandler.Index = .RANDOM) :
    ∃ v, resultsArray[rng 0 % (resultsArray.length - 1)]? = some v ∧
      passResultIntoSessionMap resultsArray httpAction sessionMap rng
        = .ok (sessionMap.set httpAction.ResponseHandler.Variable v, fun k => rng (k + 1)) := by
  have hlt : rng 0 % (resultsArray.length - 1) < resultsArray.length := by
    have := Nat.mod_lt (rng 0) (show 0 < resultsArray.length - 1 by omega)
    omega
  refine ⟨resultsArray[rng 0 % (resultsArray.length - 1)], List.getElem?_eq_getElem hlt, ?_⟩
  have hc : ((resultsArray.length : Nat) : Int) > 0 := by omega
  have hc1 : ((resultsArray.length : Nat) : Int) > 1 := by omega
  have hcast : ((resultsArray.length - 1 : Nat) : Int) = (resultsArray.length : Int) - 1 := by
    omega
  have hn : Intn rng ((resultsArray.length : Int) - 1)
      = .ok (((rng 0 % (resultsArray.length - 1) : Nat) : Int), fun k => rng (k + 1)) :=
    (congrArg (Intn rng) hcast.symm).trans (Intn_pos rng (resultsArray.length - 1) (by omega))
  have hi := index_natCast resultsArray (rng 0 % (resultsArray.length - 1)) hlt
  simp only [passResultIntoSessionMap, hc, hc1, if_true, hp, hn]
  show (do
      let v ← index resultsArray ((rng 0 % (resultsArray.length - 1) : Nat) : Int)
      pure (sessionMap.set httpAction.ResponseHandler.Variable v, fun k => rng (k + 1)))
    = _
  rw [hi]
  rfl

theorem Session.set_self (sessionMap : Session) (k v : GoString) :
    (sessionMap.set k v) k = some v := by
  simp [Session.set]

theorem passResultIntoSessionMap_mem (resultsArray : List GoString) (httpAction : HttpAction)
    (sessionMap : Session) (rng : RandSource) (h : resultsArray ≠ []) :
    ∃ v, v ∈ resultsArray ∧ ∃ rng', passResultIntoSessionMap resultsArray httpAction sessionMap rng
      = .ok (sessionMap.set httpAction.ResponseHandler.Variable v, rng') := by
  have hpos : 0 < resultsArray.length := List.length_pos.mpr h
  cases hp : httpAction.ResponseHandler.Index with
  | FIRST =>
    exact ⟨resultsArray[0], List.getElem_mem _, rng,
      passResultIntoSessionMap_FIRST resultsArray httpAction sessionMap rng hpos hp⟩
  | LAST =>
    exact ⟨resultsArray[resultsArray.length - 1], List.getElem_mem _, rng,
      passResultIntoSessionMap_LAST resultsArray httpAction sessionMap rng hpos hp⟩
  | RANDOM =>
    by_cases h1 : 1 < resultsArray.length
    · obtain ⟨v, hv, hr⟩ :=
        passResultIntoSessionMap_RANDOM_many resultsArray httpAction sessionMap rng h1 hp
      exact ⟨v, List.getElem?_mem hv, _, hr⟩
    · exact ⟨resultsArray[0], List.getElem_mem _, rng,
        passResultIntoSessionMap_RANDOM_one resultsArray httpAction sessionMap rng (by omega) hp⟩

theorem passResultIntoSessionMap_ok (resultsArray : List GoString) (httpAction : HttpAction)
    (sessionMap : Session) (rng : RandSource) :
    ∃ out, passResultIntoSessionMap resultsArray httpAction sessionMap rng = .ok out := by
  by_cases h : resultsArray = []
  · subst h
    exact ⟨_, passResultIntoSessionMap_nil httpAction sessionMap rng⟩
  · obtain ⟨v, -, rng', hr⟩ := passResultIntoSessionMap_mem resultsArray httpAction sessionMap rng h
    exact ⟨_, hr⟩

theorem jsonLoop_eq (env : Env) (results acc : List GoString) :
    jsonLoop env results acc
      = acc ++ results.map (fun result => trimChar (env.TrimSpace result) quote) := by
  induction results generalizing acc with
  | nil => simp [jsonLoop]
  | cons result rest ih => simp [jsonLoop, ih]

theorem xmlLoop_eq (nodes acc : List GoString) : xmlLoop nodes acc = acc ++ nodes := by
  induction nodes generalizing acc with
  | nil => simp [xmlLoop]
  | cons node rest ih => simp [xmlLoop, ih]

theorem processJson_of_ok (env : Env) (httpAction : HttpAction) (sessionMap : Session)
    (rng : RandSource) (responseBody : GoString) (paths : env.Paths) (eval : Eval)
    (hparse : env.ParsePaths httpAction.ResponseHandler.Jsonpath = .ok paths)
    (heval : env.EvalPathsInBytes responseBody paths = .ok eval) (herr : eval.Error = none) :
    processJson env httpAction sessionMap rng responseBody
      = passResultIntoSessionMap
          (eval.results.map (fun result => trimChar (env.TrimSpace result) quote))
          httpAction sessionMap rng := by
  simp only [processJson, hparse, heval, herr, jsonLoop_eq, List.nil_append]

theorem processXml_of_ok (env : Env) (httpAction : HttpAction) (sessionMap : Session)
    (rng : RandSource) (responseBody : GoString) (path : env.XPath) (root : env.XNode)
    (hcompile : env.Compile httpAction.ResponseHandler.Xmlpath = .ok path)
    (hparse : env.Parse responseBody = .ok root) :
    processXml env httpAction sessionMap rng responseBody
      = passResultIntoSessionMap (env.Iter path root) httpAction sessionMap rng := by
  have hm : MustCompile env httpAction.ResponseHandler.Xmlpath = .ok path := by
    simp only [MustCompile, hcompile]
  simp only [processXml, hm, bind, Except.bind, hparse]
  cases hn : env.Iter path root with
  | nil => exact (passResultIntoSessionMap_nil httpAction sessionMap rng).symm
  | cons node rest => simp only [xmlLoop_eq, List.nil_append]

theorem processJson_ok_of_not_fails (env : Env) (httpAction : HttpAction) (sessionMap : Session)
    (rng : RandSource) (responseBody : GoString)
    (h : jsonFails env httpAction responseBody = false) :
    ∃ out, processJson env httpAction sessionMap rng responseBody = .ok out := by
  unfold jsonFails at h
  cases hparse : env.ParsePaths httpAction.ResponseHandler.Jsonpath with
  | error e => simp [hparse] at h
  | ok paths =>
    cases heval : env.EvalPathsInBytes responseBody paths with
    | error e => simp [hparse, heval] at h
    | ok eval =>
      have herr : eval.Error = none := by
        simpa [hparse, heval] using h
      rw [processJson_of_ok env httpAction sessionMap rng responseBody paths eval hparse heval herr]
      exact passResultIntoSessionMap_ok _ _ _ _

theorem processJson_error_of_fails (env : Env) (httpAction : HttpAction) (sessionMap : Session)
    (rng : RandSource) (responseBody : GoString)
    (h : jsonFails env httpAction responseBody = true) :
    ∃ err, processJson env httpAction sessionMap rng responseBody = .error (.panic err) := by
  unfold jsonFails at h
  cases hparse : env.ParsePaths httpAction.ResponseHandler.Jsonpath with
  | error e => exact ⟨e, by simp only [processJson, hparse]⟩
  | ok paths =>
    cases heval : env.EvalPathsInBytes responseBody paths with
    | error e => exact ⟨e, by simp only [processJson, hparse, heval]⟩
    | ok eval =>
      cases herr : eval.Error with
      | none => simp [hparse, heval, herr] at h
      | some e => exact ⟨e, by simp only [processJson, hparse, heval, herr]⟩

theorem processXml_ok_of_not_fails (env : Env) (httpAction : HttpAction) (sessionMap : Session)
    (rng : RandSource) (responseBody : GoString)
    (h : xmlFails env httpAction responseBody = false) :
    ∃ out, processXml env httpAction sessionMap rng responseBody = .ok out := by
  unfold xmlFails at h
  cases hcompile : env.Compile httpAction.ResponseHandler.Xmlpath with
  | error e => simp [hcompile] at h
  | ok path =>
    cases hparse : env.Parse responseBody with
    | error e => simp [hcompile, hparse] at h
    | ok root =>
      rw [processXml_of_ok env httpAction sessionMap rng responseBody path root hcompile hparse]
      exact passResultIntoSessionMap_ok _ _ _ _

theorem processXml_error_of_fails (env : Env) (httpAction : HttpAction) (sessionMap : Session)
    (rng : RandSource) (responseBody : GoString)
    (h : xmlFails env httpAction responseBody = true) :
    ∃ abort, processXml env httpAction sessionMap rng responseBody = .error abort := by
  unfold xmlFails at h
  cases hcompile : env.Compile httpAction.ResponseHandler.Xmlpath with
  | error e =>
    refine ⟨.panic e, ?_⟩
    have hm : MustCompile env httpAction.ResponseHandler.Xmlpath = .error (.panic e) := by
      simp only [MustCompile, hcompile]
    simp only [processXml, hm]
    rfl
  | ok path =>
    have hm : MustCompile env httpAction.ResponseHandler.Xmlpath = .ok path := by
      simp only [MustCompile, hcompile]
    cases hparse : env.Parse responseBody with
    | error e =>
      refine ⟨.fatal e, ?_⟩
      simp only [processXml, hm, bind, Except.bind, hparse]
    | ok root => simp [hcompile, hparse] at h

/-- The two blocks of `processResult`, one after the other. -/
theorem processResult_eq (env : Env) (httpAction : HttpAction) (sessionMap : Session)
    (rng : RandSource) (responseBody : GoString) :
    processResult env httpAction sessionMap rng responseBody
      = match (if httpAction.ResponseHandler.Jsonpath ≠ [] then
            processJson env httpAction sessionMap rng responseBody
          else .ok (sessionMap, rng)) with
        | .error abort => .error abort
        | .ok (sessionMap, rng) =>
          if httpAction.ResponseHandler.Xmlpath ≠ [] then
            processXml env httpAction sessionMap rng responseBody
          else .ok (sessionMap, rng) := by
  unfold processResult
  by_cases hj : httpAction.ResponseHandler.Jsonpath ≠ []
  · simp only [if_pos hj]
    cases processJson env httpAction sessionMap rng responseBody <;> rfl
  · simp only [if_neg hj]
    rfl

theorem extractionFails_eq_false (env : Env) (httpAction : HttpAction) (responseBody : GoString)
    (h : extractionFails env httpAction responseBody = false) :
    (httpAction.ResponseHandler.Jsonpath ≠ [] → jsonFails env httpAction responseBody = false)
    ∧ (httpAction.ResponseHandler.Xmlpath ≠ [] → xmlFails env httpAction responseBody = false) := by
  unfold extractionFails at h
  constructor
  · intro hj
    cases hf : jsonFails env httpAction responseBody with
    | false => rfl
    | true => simp [hj, hf] at h
  · intro hx
    cases hf : xmlFails env httpAction responseBody with
    | false => rfl
    | true => simp [hx, hf] at h

theorem extractionFails_eq_true (env : Env) (httpAction : HttpAction) (responseBody : GoString)
    (h : extractionFails env httpAction responseBody = true) :
    (httpAction.ResponseHandler.Jsonpath ≠ [] ∧ jsonFails env httpAction responseBody = true)
    ∨ (httpAction.ResponseHandler.Xmlpath ≠ [] ∧ xmlFails env httpAction responseBody = true) := by
  unfold extractionFails at h
  simpa using h

theorem processResult_ok_of_not_fails (env : Env) (httpAction : HttpAction)
    (sessionMap : Session) (rng : RandSource) (responseBody : GoString)
    (h : extractionFails env httpAction responseBody = false) :
    ∃ out, processResult env httpAction sessionMap rng responseBody = .ok out := by
  obtain ⟨hJ, hX⟩ := extractionFails_eq_false env httpAction responseBody h
  have second : ∀ (s1 : Session) (r1 : RandSource),
      ∃ out, (if httpAction.ResponseHandler.Xmlpath ≠ [] then
          processXml env httpAction s1 r1 responseBody
        else .ok (s1, r1)) = Except.ok out := by
    intro s1 r1
    by_cases hx : httpAction.ResponseHandler.Xmlpath ≠ []
    · rw [if_pos hx]
      exact processXml_ok_of_not_fails env httpAction s1 r1 responseBody (hX hx)
    · rw [if_neg hx]
      exact ⟨_, rfl⟩
  rw [processResult_eq]
  by_cases hj : httpAction.ResponseHandler.Jsonpath ≠ []
  · obtain ⟨⟨s1, r1⟩, h1⟩ :=
      processJson_ok_of_not_fails env httpAction sessionMap rng responseBody (hJ hj)
    rw [if_pos hj, h1]
    exact second s1 r1
  · rw [if_neg hj]
    exact second sessionMap rng

theorem processResult_error_of_fails (env : Env) (httpAction : HttpAction)
    (sessionMap : Session) (rng : RandSource) (responseBody : GoString)
    (h : extractionFails env httpAction responseBody = true) :
    ∃ abort, processResult env httpAction sessionMap rng responseBody = .error abort := by
  rw [processResult_eq]
  by_cases hj : httpAction.ResponseHandler.Jsonpath ≠ []
  · rw [if_pos hj]
    cases hf : jsonFails env httpAction responseBody with
    | true =>
      obtain ⟨err, he⟩ :=
        processJson_error_of_fails env httpAction sessionMap rng responseBody hf
      rw [he]
      exact ⟨_, rfl⟩
    | false =>
      obtain ⟨⟨s1, r1⟩, h1⟩ :=
        processJson_ok_of_not_fails env httpAction sessionMap rng responseBody hf
      rw [h1]
      rcases extractionFails_eq_true env httpAction responseBody h with ⟨-, hjt⟩ | ⟨hx, hxt⟩
      · rw [hf] at hjt
        exact absurd hjt (by decide)
      · show ∃ abort, (if httpAction.ResponseHandler.Xmlpath ≠ [] then
            processXml env httpAction s1 r1 responseBody
          else .ok (s1, r1)) = Except.error abort
        rw [if_pos hx]
        exact processXml_error_of_fails env httpAction s1 r1 responseBody hxt
  · rw [if_neg hj]
    rcases extractionFails_eq_true env httpAction responseBody h with ⟨hj', -⟩ | ⟨hx, hxt⟩
    · exact absurd hj' hj
    · show ∃ abort, (if httpAction.ResponseHandler.Xmlpath ≠ [] then
          processXml env httpAction sessionMap rng responseBody
        else .ok (sessionMap, rng)) = Except.error abort
      rw [if_pos hx]
      exact processXml_error_of_fails env httpAction sessionMap rng responseBody hxt

theorem processResult_json_parse_error (env : Env) (httpAction : HttpAction)
    (sessionMap : Session) (rng : RandSource) (b : GoString) (err : GoError)
    (hj : httpAction.ResponseHandler.Jsonpath ≠ [])
    (h1 : env.ParsePaths httpAction.ResponseHandler.Jsonpath = .error err) :
    processResult env httpAction sessionMap rng b = .error (.panic err) := by
  have hpj : processJson env httpAction sessionMap rng b = .error (.panic err) := by
    simp only [processJson, h1]
  rw [processResult_eq, if_pos hj, hpj]

theorem processResult_json_eval_error (env : Env) (httpAction : HttpAction)
    (sessionMap : Session) (rng : RandSource) (b : GoString) (paths : env.Paths)
    (err : GoError) (hj : httpAction.ResponseHandler.Jsonpath ≠ [])
    (h1 : env.ParsePaths httpAction.ResponseHandler.Jsonpath = .ok paths)
    (h2 : env.EvalPathsInBytes b paths = .error err) :
    processResult env httpAction sessionMap rng b = .error (.panic err) := by
  have hpj : processJson env httpAction sessionMap rng b = .error (.panic err) := by
    simp only [processJson, h1, h2]
  rw [processResult_eq, if_pos hj, hpj]

theorem processResult_json_iteration_error (env : Env) (httpAction : HttpAction)
    (sessionMap : Session) (rng : RandSource) (b : GoString) (paths : env.Paths) (eval : Eval)
    (err : GoError) (hj : httpAction.ResponseHandler.Jsonpath ≠ [])
    (h1 : env.ParsePaths httpAction.ResponseHandler.Jsonpath = .ok paths)
    (h2 : env.EvalPathsInBytes b paths = .ok eval) (h3 : eval.Error = some err) :
    processResult env httpAction sessionMap rng b = .error (.panic err) := by
  have hpj : processJson env httpAction sessionMap rng b = .error (.panic err) := by
    simp only [processJson, h1, h2, h3]
  rw [processResult_eq, if_pos hj, hpj]

/-- When the Jsonpath block is skipped or does not fail, `processResult` reaches the Xmlpath
block with some session and random source. -/
theorem processResult_reaches_xml (env : Env) (httpAction : HttpAction)
    (sessionMap : Session) (rng : RandSource) (b : GoString)
    (hnj : ¬ (httpAction.ResponseHandler.Jsonpath ≠ [] ∧ jsonFails env httpAction b = true))
    (hx : httpAction.ResponseHandler.Xmlpath ≠ []) :
    ∃ s1 r1, processResult env httpAction sessionMap rng b
      = processXml env httpAction s1 r1 b := by
  rw [processResult_eq]
  by_cases hj : httpAction.ResponseHandler.Jsonpath ≠ []
  · have hf : jsonFails env httpAction b = false := by
      cases hjf : jsonFails env httpAction b with
      | false => rfl
      | true => exact absurd ⟨hj, hjf⟩ hnj
    obtain ⟨⟨s1, r1⟩, h1⟩ := processJson_ok_of_not_fails env httpAction sessionMap rng b hf
    refine ⟨s1, r1, ?_⟩
    rw [if_pos hj, h1]
    show (if httpAction.ResponseHandler.Xmlpath ≠ [] then processXml env httpAction s1 r1 b
      else .ok (s1, r1)) = _
    rw [if_pos hx]
  · refine ⟨sessionMap, rng, ?_⟩
    rw [if_neg hj]
    show (if httpAction.ResponseHandler.Xmlpath ≠ [] then
        processXml env httpAction sessionMap rng b
      else .ok (sessionMap, rng)) = _
    rw [if_pos hx]

theorem processResult_xml_compile_error (env : Env) (httpAction : HttpAction)
    (sessionMap : Session) (rng : RandSource) (b : GoString) (err : GoError)
    (hnj : ¬ (httpAction.ResponseHandler.Jsonpath ≠ [] ∧ jsonFails env httpAction b = true))
    (hx : httpAction.ResponseHandler.Xmlpath ≠ [])
    (h1 : env.Compile httpAction.ResponseHandler.Xmlpath = .error err) :
    processResult env httpAction sessionMap rng b = .error (.panic err) := by
  obtain ⟨s1, r1, hrun⟩ := processResult_reaches_xml env httpAction sessionMap rng b hnj hx
  have hm : MustCompile env httpAction.ResponseHandler.Xmlpath = .error (.panic err) := by
    simp only [MustCompile, h1]
  rw [hrun]
  simp only [processXml, hm]
  rfl

theorem processResult_xml_parse_error (env : Env) (httpAction : HttpAction)
    (sessionMap : Session) (rng : RandSource) (b : GoString) (path : env.XPath) (err : GoError)
    (hnj : ¬ (httpAction.ResponseHandler.Jsonpath ≠ [] ∧ jsonFails env httpAction b = true))
    (hx : httpAction.ResponseHandler.Xmlpath ≠ [])
    (h1 : env.Compile httpAction.ResponseHandler.Xmlpath = .ok path)
    (h2 : env.Parse b = .error err) :
    processResult env httpAction sessionMap rng b = .error (.fatal err) := by
  obtain ⟨s1, r1, hrun⟩ := processResult_reaches_xml env httpAction sessionMap rng b hnj hx
  have hm : MustCompile env httpAction.ResponseHandler.Xmlpath = .ok path := by
    simp only [MustCompile, h1]
  rw [hrun]
  simp only [processXml, hm, bind, Except.bind, h2]

/-- On a successful send and read, `DoHttpRequest` runs `processResult` and then sends the
record built from the body length and the status code; if `processResult` ends the process,
nothing has been sent. -/
theorem DoHttpRequest_of_success (env : Env) (httpAction : HttpAction)
    (resultsChannel : List HttpReqResult) (sessionMap : Session) (rng : RandSource) (c : Int)
    (b : GoString) (ht : TransportSucceeds env httpAction sessionMap c b) :
    DoHttpRequest env httpAction resultsChannel sessionMap rng
      = match processResult env httpAction sessionMap rng b with
        | .error abort => .error (abort, resultsChannel)
        | .ok (sessionMap', rng') =>
          .ok (resultsChannel ++ [buildHttpResult env b.length c env.elapsed httpAction.Title],
            sessionMap', rng') := by
  unfold TransportSucceeds at ht
  unfold DoHttpRequest
  by_cases hc : httpAction.Client = ascii "fasthttp"
  · rw [if_pos hc] at ht
    rw [if_pos hc]
    simp only [ht]
  · rw [if_neg hc] at ht
    rw [if_neg hc]
    cases hreq : buildHttpRequest env httpAction sessionMap with
    | error e => simp [hreq] at ht
    | ok req =>
      cases hdo : env.clientDo req with
      | error e => simp [hreq, hdo] at ht
      | ok resp =>
        simp only [hreq, hdo] at ht
        obtain ⟨hs, hr⟩ := ht
        simp only [hdo, hr, hs]

/-- When `c.Do` returns an error, the `fasthttp` branch sends one record of content length 0. -/
theorem DoHttpRequest_fasthttp_send_error (env : Env) (httpAction : HttpAction)
    (resultsChannel : List HttpReqResult) (sessionMap : Session) (rng : RandSource)
    (resp : FasthttpResponse) (err : GoError)
    (hc : httpAction.Client = ascii "fasthttp")
    (hdo : env.fasthttpDo
        { method := httpAction.Method
          requestURI := env.SubstParams sessionMap httpAction.Url
          accept := httpAction.Accept } = (resp, some err)) :
    DoHttpRequest env httpAction resultsChannel sessionMap rng
      = .ok (resultsChannel
          ++ [buildHttpResult env 0 resp.StatusCode env.elapsed httpAction.Title],
        sessionMap, rng) := by
  unfold DoHttpRequest
  rw [if_pos hc]
  simp only [hdo]

/-- When `client.Do` returns an error, the `net/http` branch sends nothing. -/
theorem DoHttpRequest_standard_send_error (env : Env) (httpAction : HttpAction)
    (resultsChannel : List HttpReqResult) (sessionMap : Session) (rng : RandSource)
    (req : HttpRequest) (err : GoError)
    (hc : httpAction.Client ≠ ascii "fasthttp")
    (hreq : buildHttpRequest env httpAction sessionMap = .ok req)
    (hdo : env.clientDo req = .error err) :
    DoHttpRequest env httpAction resultsChannel sessionMap rng
      = .ok (resultsChannel, sessionMap, rng) := by
  unfold DoHttpRequest
  rw [if_neg hc]
  simp only [hreq, hdo]

/-! ## Properties of `trimChar` and `passResultIntoSessionMap` -/

/-- C8: `trimChar s r` strips exactly one layer of `r`: one trailing `r` if `s` ends with `r`,
then one leading `r` if what remains starts with `r`, and nothing else. So
`trimChar (r ++ t ++ r) r = t` for every `t`, and `trimChar s r = s` when `s` neither starts
nor ends with `r`. -/
theorem trimChar_strips_one_layer (s : GoString) (r : UInt8) :
    trimChar s r = stripOneLayer s r
    ∧ (∀ t : GoString, trimChar ([r] ++ t ++ [r]) r = t)
    ∧ (s.head? ≠ some r → s.getLast? ≠ some r → trimChar s r = s) := by
  refine ⟨trimChar_eq_stripOneLayer s r, ?_, ?_⟩
  · intro t
    rw [trimChar_eq_stripOneLayer]
    exact stripOneLayer_wrapped t r
  · intro hh hl
    rw [trimChar_eq_stripOneLayer]
    simp [stripOneLayer, hh, hl]

/-- The string `ab` has no quote at either end and `trimChar` returns it as it is. -/
theorem trimChar_strips_one_layer_witness :
    (ascii "ab").head? ≠ some quote ∧ (ascii "ab").getLast? ≠ some quote
    ∧ trimChar (ascii "ab") quote = ascii "ab" :=
  ⟨by decide, by decide,
    (trimChar_strips_one_layer (ascii "ab") quote).2.2 (by decide) (by decide)⟩

/-- C5: with an empty match list `passResultIntoSessionMap` returns the session it was given,
whatever the policy and the variable: every key keeps its value and no key is added. The random
source is not used either. -/
theorem passResultIntoSessionMap_empty_unchanged (httpAction : HttpAction) (sessionMap : Session)
    (rng : RandSource) :
    passResultIntoSessionMap [] httpAction sessionMap rng = .ok (sessionMap, rng) :=
  passResultIntoSessionMap_nil httpAction sessionMap rng

/-- C6: with a non-empty match list, the target variable holds `matches[0]` under `FIRST` and
the final element `matches[N-1]` under `LAST` after `passResultIntoSessionMap`. -/
theorem passResultIntoSessionMap_first_last (resultsArray : List GoString)
    (httpAction : HttpAction) (sessionMap : Session) (rng : RandSource)
    (h : 0 < resultsArray.length) :
    (httpAction.ResponseHandler.Index = .FIRST →
      ∃ s', passResultIntoSessionMap resultsArray httpAction sessionMap rng = .ok (s', rng)
        ∧ s' = sessionMap.set httpAction.ResponseHandler.Variable resultsArray[0]
        ∧ s' httpAction.ResponseHandler.Variable = some resultsArray[0])
    ∧ (httpAction.ResponseHandler.Index = .LAST →
      ∃ s', passResultIntoSessionMap resultsArray httpAction sessionMap rng = .ok (s', rng)
        ∧ s' = sessionMap.set httpAction.ResponseHandler.Variable
            resultsArray[resultsArray.length - 1]
        ∧ s' httpAction.ResponseHandler.Variable
            = some resultsArray[resultsArray.length - 1]) := by
  constructor
  · intro hp
    exact ⟨_, passResultIntoSessionMap_FIRST resultsArray httpAction sessionMap rng h hp, rfl,
      Session.set_self _ _ _⟩
  · intro hp
    exact ⟨_, passResultIntoSessionMap_LAST resultsArray httpAction sessionMap rng h hp, rfl,
      Session.set_self _ _ _⟩

/-- For the matches `x`, `y`, `z`: `x` under `FIRST` and `z` under `LAST`. -/
theorem passResultIntoSessionMap_first_last_witness :
    0 < xyz.length
    ∧ (∃ s', passResultIntoSessionMap xyz (policyAction .FIRST) Session.empty (constSource 0)
          = .ok (s', constSource 0) ∧ s' (ascii "v") = some (ascii "x"))
    ∧ (∃ s', passResultIntoSessionMap xyz (policyAction .LAST) Session.empty (constSource 0)
          = .ok (s', constSource 0) ∧ s' (ascii "v") = some (ascii "z")) := by
  refine ⟨by decide, ?_, ?_⟩
  · obtain ⟨s', h1, -, h3⟩ := (passResultIntoSessionMap_first_last xyz (policyAction .FIRST)
      Session.empty (constSource 0) (by decide)).1 rfl
    exact ⟨s', h1, h3⟩
  · obtain ⟨s', h1, -, h3⟩ := (passResultIntoSessionMap_first_last xyz (policyAction .LAST)
      Session.empty (constSource 0) (by decide)).2 rfl
    exact ⟨s', h1, h3⟩

/-- C7: with exactly one match `v`, `passResultIntoSessionMap` sets the target variable to `v`
under each of `FIRST`, `LAST` and `RANDOM`; no draw is taken from the random source, and the
session written is the same for every random source. -/
theorem passResultIntoSessionMap_single (v : GoString) (httpAction : HttpAction)
    (sessionMap : Session) (rng : RandSource) :
    passResultIntoSessionMap [v] httpAction sessionMap rng
        = .ok (sessionMap.set httpAction.ResponseHandler.Variable v, rng)
    ∧ (sessionMap.set httpAction.ResponseHandler.Variable v) httpAction.ResponseHandler.Variable
        = some v
    ∧ ∀ rng₂ : RandSource,
        (passResultIntoSessionMap [v] httpAction sessionMap rng₂).map Prod.fst
          = (passResultIntoSessionMap [v] httpAction sessionMap rng).map Prod.fst := by
  have key : ∀ g : RandSource, passResultIntoSessionMap [v] httpAction sessionMap g
      = .ok (sessionMap.set httpAction.ResponseHandler.Variable v, g) := by
    intro g
    cases hp : httpAction.ResponseHandler.Index with
    | FIRST => exact passResultIntoSessionMap_FIRST [v] httpAction sessionMap g (by simp) hp
    | LAST => exact passResultIntoSessionMap_LAST [v] httpAction sessionMap g (by simp) hp
    | RANDOM => exact passResultIntoSessionMap_RANDOM_one [v] httpAction sessionMap g rfl hp
  refine ⟨key rng, Session.set_self _ _ _, ?_⟩
  intro rng₂
  rw [key rng₂, key rng]
  rfl

/-- C9: with a non-empty match list, under every policy and every random source,
`passResultIntoSessionMap` does not panic (no index outside the list, no `rand.Intn` on a
non-positive bound) and the value it writes to the target variable is an element of the list;
under `RANDOM` with more than one match the call `rand.Intn(resultCount-1)` succeeds with an
index inside the list. -/
theorem passResultIntoSessionMap_safe (resultsArray : List GoString) (httpAction : HttpAction)
    (sessionMap : Session) (rng : RandSource) (h : resultsArray ≠ []) :
    (∃ v, v ∈ resultsArray ∧ ∃ rng',
      passResultIntoSessionMap resultsArray httpAction sessionMap rng
        = .ok (sessionMap.set httpAction.ResponseHandler.Variable v, rng'))
    ∧ (1 < resultsArray.length →
        ∃ i rng', Intn rng ((resultsArray.length : Int) - 1) = .ok (i, rng')
          ∧ 0 ≤ i ∧ i < resultsArray.length
          ∧ ∃ v, index resultsArray i = .ok v) := by
  refine ⟨passResultIntoSessionMap_mem resultsArray httpAction sessionMap rng h, ?_⟩
  intro h1
  have hcast : ((resultsArray.length - 1 : Nat) : Int) = (resultsArray.length : Int) - 1 := by
    omega
  have hlt : rng 0 % (resultsArray.length - 1) < resultsArray.length := by
    have := Nat.mod_lt (rng 0) (show 0 < resultsArray.length - 1 by omega)
    omega
  refine ⟨((rng 0 % (resultsArray.length - 1) : Nat) : Int), fun k => rng (k + 1),
    (congrArg (Intn rng) hcast.symm).trans (Intn_pos rng (resultsArray.length - 1) (by omega)),
    by omega, by omega, _, index_natCast resultsArray _ hlt⟩

/-- For the matches `x`, `y`, `z` under `RANDOM`, with every draw equal to 7. -/
theorem passResultIntoSessionMap_safe_witness :
    xyz ≠ [] ∧ ∃ v, v ∈ xyz ∧ ∃ rng',
      passResultIntoSessionMap xyz (policyAction .RANDOM) Session.empty (constSource 7)
        = .ok (Session.empty.set (ascii "v") v, rng') :=
  ⟨by decide,
    (passResultIntoSessionMap_safe xyz (policyAction .RANDOM) Session.empty (constSource 7)
      (by decide)).1⟩

/-- C4, evaluated on the code: under `RANDOM` with the three matches `x`, `y`, `z` the index is
`rand.Intn(2)`, so for every random source the value written is `x` or `y` and never the last
match `z`. -/
theorem passResultIntoSessionMap_RANDOM_never_last (sessionMap : Session) (rng : RandSource) :
    ∃ v rng', passResultIntoSessionMap xyz (policyAction .RANDOM) sessionMap rng
        = .ok (sessionMap.set (ascii "v") v, rng')
      ∧ (v = ascii "x" ∨ v = ascii "y") ∧ v ≠ ascii "z" := by
  obtain ⟨v, hv, hr⟩ :=
    passResultIntoSessionMap_RANDOM_many xyz (policyAction .RANDOM) sessionMap rng (by decide) rfl
  have hlen : xyz.length - 1 = 2 := by decide
  rw [hlen] at hv
  have hcases : rng 0 % 2 = 0 ∨ rng 0 % 2 = 1 := by omega
  have hv' : v = ascii "x" ∨ v = ascii "y" := by
    rcases hcases with h0 | h1
    · left
      rw [h0] at hv
      exact (Option.some.inj hv).symm
    · right
      rw [h1] at hv
      exact (Option.some.inj hv).symm
  refine ⟨v, _, hr, hv', ?_⟩
  rcases hv' with h | h <;> rw [h] <;> decide

/-! ## Properties of `processResult` and `DoHttpRequest` -/

/-- C1, evaluated on the code: when the send fails, the `fasthttp` branch sends one record with
content length 0, and the other branch sends nothing: the channel is returned as it was. -/
theorem DoHttpRequest_send_error_standard_no_record (resultsChannel : List HttpReqResult)
    (sessionMap : Session) (rng : RandSource) :
    DoHttpRequest sendFailsEnv (demoAction (ascii "standard") (demoHandler [] [] .FIRST))
        resultsChannel sessionMap rng
      = .ok (resultsChannel, sessionMap, rng)
    ∧ DoHttpRequest sendFailsEnv (demoAction (ascii "fasthttp") (demoHandler [] [] .FIRST))
        resultsChannel sessionMap rng
      = .ok (resultsChannel ++ [buildHttpResult sendFailsEnv 0 0 5 (ascii "t")],
          sessionMap, rng)
    ∧ (buildHttpResult sendFailsEnv 0 0 5 (ascii "t")).contentLength = 0 :=
  ⟨rfl, rfl, rfl⟩

/-- C2, counterexample: the send succeeds with status 200 and body `ab`, the action has a
Jsonpath that does not compile, and `DoHttpRequest` panics in `processResult` before any record
is sent: the channel is still empty when the process ends. -/
theorem DoHttpRequest_success_no_record_on_bad_jsonpath :
    TransportSucceeds jsonCompileFailsEnv (jsonAction (ascii "fasthttp")) Session.empty 200
        (ascii "ab")
    ∧ DoHttpRequest jsonCompileFailsEnv (jsonAction (ascii "fasthttp")) [] Session.empty
        (constSource 0) = .error (.panic "bad path", [])
    ∧ ¬ ∃ record sessionMap rng,
        DoHttpRequest jsonCompileFailsEnv (jsonAction (ascii "fasthttp")) [] Session.empty
          (constSource 0) = .ok ([record], sessionMap, rng) := by
  have hrun : DoHttpRequest jsonCompileFailsEnv (jsonAction (ascii "fasthttp")) [] Session.empty
      (constSource 0) = .error (.panic "bad path", []) := rfl
  refine ⟨?_, hrun, ?_⟩
  · unfold TransportSucceeds
    rw [if_pos (by decide)]
    rfl
  · rintro ⟨record, sessionMap, rng, h⟩
    rw [hrun] at h
    cases h

/-- C2, amended: for every action, session and client, when the send and the read of the body
both succeed with body `b` and status `c` and no configured query fails to compile or evaluate,
`DoHttpRequest` sends exactly one record, with content length the byte length of `b`, status
`c`, protocol `HTTP` and the action's title; the session and random source are those
`processResult` leaves. -/
theorem DoHttpRequest_success_one_record (env : Env) (httpAction : HttpAction)
    (resultsChannel : List HttpReqResult) (sessionMap : Session) (rng : RandSource) (c : Int)
    (b : GoString) (ht : TransportSucceeds env httpAction sessionMap c b)
    (hx : extractionFails env httpAction b = false) :
    ∃ record sessionMap' rng',
      DoHttpRequest env httpAction resultsChannel sessionMap rng
        = .ok (resultsChannel ++ [record], sessionMap', rng')
      ∧ record.contentLength = (b.length : Int) ∧ record.status = c
      ∧ record.protocol = ascii "HTTP" ∧ record.title = httpAction.Title
      ∧ processResult env httpAction sessionMap rng b = .ok (sessionMap', rng') := by
  obtain ⟨⟨s', r'⟩, hp⟩ := processResult_ok_of_not_fails env httpAction sessionMap rng b hx
  refine ⟨buildHttpResult env b.length c env.elapsed httpAction.Title, s', r', ?_, rfl, rfl, rfl,
    rfl, hp⟩
  rw [DoHttpRequest_of_success env httpAction resultsChannel sessionMap rng c b ht, hp]

/-- A `net/http` action with a Jsonpath that matches, on status 200 and body `ab`. -/
theorem DoHttpRequest_success_one_record_witness :
    TransportSucceeds (bothMatchEnv []) (jsonAction (ascii "standard")) Session.empty 200
        (ascii "ab")
    ∧ extractionFails (bothMatchEnv []) (jsonAction (ascii "standard")) (ascii "ab") = false
    ∧ ∃ record sessionMap' rng',
      DoHttpRequest (bothMatchEnv []) (jsonAction (ascii "standard")) [] Session.empty
          (constSource 0) = .ok ([] ++ [record], sessionMap', rng')
      ∧ record.contentLength = ((ascii "ab").length : Int) ∧ record.status = 200
      ∧ record.protocol = ascii "HTTP" ∧ record.title = (jsonAction (ascii "standard")).Title
      ∧ processResult (bothMatchEnv []) (jsonAction (ascii "standard")) Session.empty
          (constSource 0) (ascii "ab") = .ok (sessionMap', rng') := by
  have ht : TransportSucceeds (bothMatchEnv []) (jsonAction (ascii "standard")) Session.empty 200
      (ascii "ab") := by
    unfold TransportSucceeds
    rw [if_neg (by decide)]
    exact ⟨rfl, rfl⟩
  exact ⟨ht, rfl, DoHttpRequest_success_one_record (bothMatchEnv [])
    (jsonAction (ascii "standard")) [] Session.empty (constSource 0) 200 (ascii "ab") ht rfl⟩

/-- C3, counterexample: the action has the Xmlpath `//a`, the send succeeds with status 200 and
the body `<a></b>`, which does not parse as XML. `processResult` does not return: it ends in
`log.Fatal`, and the enclosing `DoHttpRequest` ends with it, the channel still empty. -/
theorem processResult_aborts_on_malformed_xml :
    TransportSucceeds (xmlBodyEnv mismatchedXml) (xmlAction (ascii "standard")) Session.empty 200
        mismatchedXml
    ∧ extractionFails (xmlBodyEnv mismatchedXml) (xmlAction (ascii "standard")) mismatchedXml
        = true
    ∧ processResult (xmlBodyEnv mismatchedXml) (xmlAction (ascii "standard")) Session.empty
        (constSource 0) mismatchedXml = .error (.fatal "XML syntax error")
    ∧ DoHttpRequest (xmlBodyEnv mismatchedXml) (xmlAction (ascii "standard")) [] Session.empty
        (constSource 0) = .error (.fatal "XML syntax error", [])
    ∧ (¬ ∃ out, processResult (xmlBodyEnv mismatchedXml) (xmlAction (ascii "standard"))
        Session.empty (constSource 0) mismatchedXml = .ok out)
    ∧ ¬ ∃ out, DoHttpRequest (xmlBodyEnv mismatchedXml) (xmlAction (ascii "standard")) []
        Session.empty (constSource 0) = .ok out := by
  have hrun : processResult (xmlBodyEnv mismatchedXml) (xmlAction (ascii "standard"))
      Session.empty (constSource 0) mismatchedXml = .error (.fatal "XML syntax error") := rfl
  have hdo : DoHttpRequest (xmlBodyEnv mismatchedXml) (xmlAction (ascii "standard")) []
      Session.empty (constSource 0) = .error (.fatal "XML syntax error", []) := rfl
  refine ⟨?_, rfl, hrun, hdo, ?_, ?_⟩
  · unfold TransportSucceeds
    rw [if_neg (by decide)]
    exact ⟨rfl, rfl⟩
  · rintro ⟨out, h⟩
    rw [hrun] at h
    cases h
  · rintro ⟨out, h⟩
    rw [hdo] at h
    cases h

/-- C3, amended: for every action, session and response body, if a configured query fails to
compile or to evaluate against the body, `processResult` does not return but ends the process.
It ends in `panic(err)`, with the library's error, when the Jsonpath is set and `ParsePaths`
fails, `EvalPathsInBytes` fails or `eval.Error` is set; when the Jsonpath block did not fail, it
ends in `panic(err)` when the Xmlpath does not compile and in `log.Fatal(err)` when the
Xmlpath compiles and the body does not parse as XML. An enclosing `DoHttpRequest` whose send and
read succeeded ends with the same abort and the channel exactly as it was given: no record is
delivered. -/
theorem processResult_extraction_failure_aborts (env : Env) (httpAction : HttpAction)
    (sessionMap : Session) (rng : RandSource) (b : GoString)
    (hx : extractionFails env httpAction b = true) :
    ∃ abort, processResult env httpAction sessionMap rng b = .error abort
      ∧ (httpAction.ResponseHandler.Jsonpath ≠ [] →
          (∀ err, env.ParsePaths httpAction.ResponseHandler.Jsonpath = .error err →
            abort = .panic err)
          ∧ (∀ paths err, env.ParsePaths httpAction.ResponseHandler.Jsonpath = .ok paths →
              env.EvalPathsInBytes b paths = .error err → abort = .panic err)
          ∧ (∀ paths eval err, env.ParsePaths httpAction.ResponseHandler.Jsonpath = .ok paths →
              env.EvalPathsInBytes b paths = .ok eval → eval.Error = some err →
              abort = .panic err))
      ∧ (¬ (httpAction.ResponseHandler.Jsonpath ≠ [] ∧ jsonFails env httpAction b = true) →
          httpAction.ResponseHandler.Xmlpath ≠ []
          ∧ (∀ err, env.Compile httpAction.ResponseHandler.Xmlpath = .error err →
              abort = .panic err)
          ∧ (∀ path err, env.Compile httpAction.ResponseHandler.Xmlpath = .ok path →
              env.Parse b = .error err → abort = .fatal err))
      ∧ ∀ (resultsChannel : List HttpReqResult) (c : Int),
          TransportSucceeds env httpAction sessionMap c b →
          DoHttpRequest env httpAction resultsChannel sessionMap rng
            = .error (abort, resultsChannel) := by
  obtain ⟨abort, hp⟩ := processResult_error_of_fails env httpAction sessionMap rng b hx
  refine ⟨abort, hp, ?_, ?_, ?_⟩
  · intro hj
    refine ⟨?_, ?_, ?_⟩
    · intro err h1
      have := processResult_json_parse_error env httpAction sessionMap rng b err hj h1
      rw [hp] at this
      exact Except.error.inj this
    · intro paths err h1 h2
      have := processResult_json_eval_error env httpAction sessionMap rng b paths err hj h1 h2
      rw [hp] at this
      exact Except.error.inj this
    · intro paths eval err h1 h2 h3
      have := processResult_json_iteration_error env httpAction sessionMap rng b paths eval err
        hj h1 h2 h3
      rw [hp] at this
      exact Except.error.inj this
  · intro hnj
    have hxml : httpAction.ResponseHandler.Xmlpath ≠ [] := by
      rcases extractionFails_eq_true env httpAction b hx with h | h
      · exact absurd h hnj
      · exact h.1
    refine ⟨hxml, ?_, ?_⟩
    · intro err h1
      have := processResult_xml_compile_error env httpAction sessionMap rng b err hnj hxml h1
      rw [hp] at this
      exact Except.error.inj this
    · intro path err h1 h2
      have := processResult_xml_parse_error env httpAction sessionMap rng b path err hnj hxml
        h1 h2
      rw [hp] at this
      exact Except.error.inj this
  · intro resultsChannel c ht
    rw [DoHttpRequest_of_success env httpAction resultsChannel sessionMap rng c b ht, hp]

/-- A `fasthttp` action with the Xmlpath `//a`, on status 200 and the unclosed body `<a>`: the
process ends in `log.Fatal` with nothing sent. -/
theorem processResult_extraction_failure_aborts_witness :
    extractionFails (xmlBodyEnv unclosedXml) (xmlAction (ascii "fasthttp")) unclosedXml = true
    ∧ TransportSucceeds (xmlBodyEnv unclosedXml) (xmlAction (ascii "fasthttp")) Session.empty
        200 unclosedXml
    ∧ processResult (xmlBodyEnv unclosedXml) (xmlAction (ascii "fasthttp")) Session.empty
        (constSource 0) unclosedXml = .error (.fatal "XML syntax error")
    ∧ DoHttpRequest (xmlBodyEnv unclosedXml) (xmlAction (ascii "fasthttp")) [] Session.empty
        (constSource 0) = .error (.fatal "XML syntax error", []) := by
  have ht : TransportSucceeds (xmlBodyEnv unclosedXml) (xmlAction (ascii "fasthttp"))
      Session.empty 200 unclosedXml := by
    unfold TransportSucceeds
    rw [if_pos (by decide)]
    rfl
  obtain ⟨abort, hp, -, hxml, hdo⟩ := processResult_extraction_failure_aborts
    (xmlBodyEnv unclosedXml) (xmlAction (ascii "fasthttp")) Session.empty (constSource 0)
    unclosedXml rfl
  have hab : abort = .fatal "XML syntax error" :=
    (hxml (by decide)).2.2 () "XML syntax error" rfl rfl
  subst hab
  exact ⟨rfl, ht, hp, hdo [] 200 ht⟩

/-- C10: when both a Jsonpath and an Xmlpath are set and both evaluations succeed,
`processResult` applies the selector to the JSON matches first and then to the XML matches, on
the same variable: with no XML match the result is the state after the JSON step, and with at
least one XML match the variable ends with a value selected from the XML matches. -/
theorem processResult_json_then_xml (env : Env) (httpAction : HttpAction) (sessionMap : Session)
    (rng : RandSource) (responseBody : GoString) (paths : env.Paths) (eval : Eval)
    (path : env.XPath) (root : env.XNode)
    (hj : httpAction.ResponseHandler.Jsonpath ≠ [])
    (hx : httpAction.ResponseHandler.Xmlpath ≠ [])
    (hparse : env.ParsePaths httpAction.ResponseHandler.Jsonpath = .ok paths)
    (heval : env.EvalPathsInBytes responseBody paths = .ok eval) (herr : eval.Error = none)
    (hcompile : env.Compile httpAction.ResponseHandler.Xmlpath = .ok path)
    (hxparse : env.Parse responseBody = .ok root) :
    ∃ s1 r1,
      passResultIntoSessionMap
          (eval.results.map (fun result => trimChar (env.TrimSpace result) quote))
          httpAction sessionMap rng = .ok (s1, r1)
      ∧ processResult env httpAction sessionMap rng responseBody
          = passResultIntoSessionMap (env.Iter path root) httpAction s1 r1
      ∧ (env.Iter path root = [] →
          processResult env httpAction sessionMap rng responseBody = .ok (s1, r1))
      ∧ (env.Iter path root ≠ [] →
          ∃ v, v ∈ env.Iter path root ∧ ∃ r2,
            processResult env httpAction sessionMap rng responseBody
              = .ok (s1.set httpAction.ResponseHandler.Variable v, r2)
            ∧ (s1.set httpAction.ResponseHandler.Variable v)
                httpAction.ResponseHandler.Variable = some v) := by
  obtain ⟨⟨s1, r1⟩, h1⟩ := passResultIntoSessionMap_ok
    (eval.results.map (fun result => trimChar (env.TrimSpace result) quote))
    httpAction sessionMap rng
  have hrun : processResult env httpAction sessionMap rng responseBody
      = passResultIntoSessionMap (env.Iter path root) httpAction s1 r1 := by
    rw [processResult_eq, if_pos hj,
      processJson_of_ok env httpAction sessionMap rng responseBody paths eval hparse heval herr,
      h1]
    show (if httpAction.ResponseHandler.Xmlpath ≠ [] then
        processXml env httpAction s1 r1 responseBody
      else .ok (s1, r1)) = _
    rw [if_pos hx, processXml_of_ok env httpAction s1 r1 responseBody path root hcompile hxparse]
  refine ⟨s1, r1, h1, hrun, ?_, ?_⟩
  · intro hnil
    rw [hrun, hnil]
    exact passResultIntoSessionMap_nil httpAction s1 r1
  · intro hne
    obtain ⟨v, hv, r2, h2⟩ :=
      passResultIntoSessionMap_mem (env.Iter path root) httpAction s1 r1 hne
    exact ⟨v, hv, r2, hrun.trans h2, Session.set_self _ _ _⟩

/-- The JSON match `j` is written first, then the first XML match `n` replaces it. -/
theorem processResult_json_then_xml_witness :
    (bothAction (ascii "fasthttp")).ResponseHandler.Jsonpath ≠ []
    ∧ (bothAction (ascii "fasthttp")).ResponseHandler.Xmlpath ≠ []
    ∧ processResult (bothMatchEnv [ascii "n", ascii "m"]) (bothAction (ascii "fasthttp"))
          Session.empty (constSource 0) (ascii "ab")
        = .ok ((Session.empty.set (ascii "v") (ascii "j")).set (ascii "v") (ascii "n"),
            constSource 0) := by
  refine ⟨by decide, by decide, ?_⟩
  obtain ⟨s1, r1, h1, hrun, -, -⟩ := processResult_json_then_xml
    (bothMatchEnv [ascii "n", ascii "m"]) (bothAction (ascii "fasthttp")) Session.empty
    (constSource 0) (ascii "ab") () { results := [[34, 106, 34]], Error := none } () ()
    (by decide) (by decide) rfl rfl rfl rfl rfl
  have h1' : passResultIntoSessionMap
      ([[34, 106, 34]].map (fun result =>
        trimChar ((bothMatchEnv [ascii "n", ascii "m"]).TrimSpace result) quote))
      (bothAction (ascii "fasthttp")) Session.empty (constSource 0)
      = .ok (Session.empty.set (ascii "v") (ascii "j"), constSource 0) := rfl
  rw [h1'] at h1
  cases h1
  rw [hrun]
  rfl

end Gotling
